import Mathlib

/-!
Verification of the analysis core of the `eo-marine-wind` repository
(`src/pipeline.py`).

The pipeline works on masked floating-point rasters (rioxarray arrays opened
with `masked=True`): each cell is either a finite reflectance sample or NaN
(no-data).  We embed such values as `FVal` — NaN, a signed infinity, or a
finite rational — with the IEEE-754-style arithmetic NumPy applies
elementwise, and embed a clipped raster as a flat `List FVal` (all operations
in the source are elementwise or full reductions, so the 2-D layout is
irrelevant).  `DataArray.mean()` is embedded as `nanmean`, the NaN-skipping
mean xarray uses by default (`skipna=True` for float data).  Python's
`round(x, 1)` (round-half-to-even at one decimal) is embedded as `pyRound1`
over exact rationals.
-/

/-- Value of a masked float raster cell or float scalar: NaN (also used for
masked/no-data cells), a signed infinity (`inf true` = +∞), or a finite
rational. -/
inductive FVal where
  | nan : FVal
  | inf : Bool → FVal
  | fin : ℚ → FVal
deriving DecidableEq

/-- IEEE-style negation. -/
def fneg : FVal → FVal
  | .nan => .nan
  | .inf s => .inf (!s)
  | .fin a => .fin (-a)

/-- IEEE-style addition. -/
def fadd : FVal → FVal → FVal
  | .nan, _ => .nan
  | _, .nan => .nan
  | .inf s, .inf t => if s = t then .inf s else .nan
  | .inf s, .fin _ => .inf s
  | .fin _, .inf t => .inf t
  | .fin a, .fin b => .fin (a + b)

/-- IEEE-style subtraction. -/
def fsub (x y : FVal) : FVal := fadd x (fneg y)

/-- IEEE-style multiplication. -/
def fmul : FVal → FVal → FVal
  | .nan, _ => .nan
  | _, .nan => .nan
  | .inf s, .inf t => .inf (s == t)
  | .inf s, .fin b => if b = 0 then .nan else .inf (if 0 < b then s else !s)
  | .fin a, .inf t => if a = 0 then .nan else .inf (if 0 < a then t else !t)
  | .fin a, .fin b => .fin (a * b)

/-- IEEE-style division; `0/0` is NaN, `x/0` for `x ≠ 0` is a signed
infinity (NumPy float semantics, which emit a warning but produce the
value). -/
def fdiv : FVal → FVal → FVal
  | .nan, _ => .nan
  | _, .nan => .nan
  | .inf _, .inf _ => .nan
  | .inf s, .fin b => .inf (if 0 ≤ b then s else !s)
  | .fin _, .inf _ => .fin 0
  | .fin a, .fin b =>
      if b = 0 then (if a = 0 then .nan else .inf (decide (0 < a)))
      else .fin (a / b)

/-- IEEE-style `<` (false whenever an operand is NaN). -/
def flt : FVal → FVal → Bool
  | .nan, _ => false
  | _, .nan => false
  | .fin a, .fin b => decide (a < b)
  | .inf s, .fin _ => !s
  | .fin _, .inf t => t
  | .inf s, .inf t => !s && t

/-- The finite values of a list of `FVal`, in order. -/
def finVals : List FVal → List ℚ
  | [] => []
  | FVal.fin a :: xs => a :: finVals xs
  | _ :: xs => finVals xs

/-- Is the value +∞? -/
def isInfPos : FVal → Bool
  | .inf true => true
  | _ => false

/-- Is the value -∞? -/
def isInfNeg : FVal → Bool
  | .inf false => true
  | _ => false

/-- NaN-skipping mean, the xarray `DataArray.mean()` reduction for float
data (`skipna=True`): NaN entries are dropped, infinities dominate the sum,
and the mean of an empty (all-NaN) list is NaN. -/
def nanmean (xs : List FVal) : FVal :=
  if xs.any isInfPos then
    (if xs.any isInfNeg then .nan else .inf true)
  else if xs.any isInfNeg then .inf false
  else
    match finVals xs with
    | [] => .nan
    | vs => .fin (vs.sum / (vs.length : ℚ))

/-- Round to the nearest integer, ties to even (the rounding Python's
`round` applies). -/
def roundHalfEven (q : ℚ) : ℤ :=
  if q - ⌊q⌋ < 1/2 then ⌊q⌋
  else if 1/2 < q - ⌊q⌋ then ⌊q⌋ + 1
  else if ⌊q⌋ % 2 = 0 then ⌊q⌋ else ⌊q⌋ + 1

/-- Python's `round(q, 1)`: round to one decimal place, ties to even. -/
def pyRound1 (q : ℚ) : ℚ := (roundHalfEven (10 * q) : ℚ) / 10

/-- `round(x, 1)` lifted to float values: NaN and infinities pass through. -/
def fround1 : FVal → FVal
  | .fin a => .fin (pyRound1 a)
  | x => x

/-- The elementwise NDTI field `(red - green) / (red + green)` computed by
`calculate_marine_status` (line 15 of `src/pipeline.py`). -/
def ndtiField (red green : List FVal) : List FVal :=
  List.zipWith (fun r g => fdiv (fsub r g) (fadd r g)) red green

/-- `calculate_marine_status` from `src/pipeline.py`: returns the NDTI
field, its NaN-skipping mean (`avg_turbidity`), and the vegetation proxy
`float(green.mean() / 10000) * 1.15`. -/
def calculate_marine_status (red green : List FVal) :
    List FVal × FVal × FVal :=
  let ndti := ndtiField red green
  let avg_turbidity := nanmean ndti
  let veg_proxy := fmul (fdiv (nanmean green) (.fin 10000)) (.fin (115/100))
  (ndti, avg_turbidity, veg_proxy)

/-- `calculate_turbine_feasibility` from `src/pipeline.py`: the depth proxy
`float(30 - (green.mean() / 500))` with the grounding clamp
(`if depth_m < 5: depth_m = 12.0`), the fixed wind-speed and
distance-to-shore constants, and the score
`(avg_wind_speed * 5) + (40 - depth_m)`.  Returns
`(round(score, 1), round(depth_m, 1), avg_wind_speed, dist_shore)`.
The `red` argument is accepted but unused, as in the source. -/
def calculate_turbine_feasibility (red green : List FVal) :
    FVal × FVal × ℚ × ℚ :=
  let depth0 := fsub (.fin 30) (fdiv (nanmean green) (.fin 500))
  let depth_m := if flt depth0 (.fin 5) then FVal.fin 12 else depth0
  let avg_wind_speed : ℚ := 94/10
  let dist_shore : ℚ := 56/5
  let score := fadd (fmul (.fin avg_wind_speed) (.fin 5)) (fsub (.fin 40) depth_m)
  (fround1 score, fround1 depth_m, avg_wind_speed, dist_shore)

/-- The 7-tuple `run_analysis` returns to the presentation layer. -/
structure AnalysisResult where
  previewPath : String
  feasibilityScore : FVal
  turbidityMean : FVal
  vegetationProxy : FVal
  depthEstimate : FVal
  windSpeed : ℚ
  distanceToShore : ℚ
deriving DecidableEq

/-- The failure class of the analysis.  `indexOutOfRange` models the Python
`IndexError` raised by `list(search.items())[0]` on an empty catalog
result. -/
inductive AnalysisError where
  | indexOutOfRange : AnalysisError
deriving DecidableEq

/-- One catalog scene, exposing its red and green band rasters already
clipped to the bounding box (the fetch and clip steps are external
rioxarray/geopandas calls; they are the data source of the core). -/
structure Scene where
  red : List FVal
  green : List FVal

/-- `run_analysis` from `src/pipeline.py`, abstracting the external catalog
search into its result list: `item = list(search.items())[0]` fails with an
index-out-of-range error on an empty result; otherwise the two calculators
run on the clipped bands and the 7-tuple is returned, with the preview
written to `f"{site_name}_report.png"`. -/
def run_analysis (searchItems : List Scene) (site_name : String) :
    Except AnalysisError AnalysisResult :=
  match searchItems with
  | [] => Except.error AnalysisError.indexOutOfRange
  | item :: _ =>
    let ms := calculate_marine_status item.red item.green
    let tf := calculate_turbine_feasibility item.red item.green
    Except.ok
      { previewPath := site_name ++ "_report.png"
        feasibilityScore := tf.1
        turbidityMean := ms.2.1
        vegetationProxy := ms.2.2
        depthEstimate := tf.2.1
        windSpeed := tf.2.2.1
        distanceToShore := tf.2.2.2 }

/-- A well-formed reflectance raster cell: masked (NaN) or a finite
nonnegative reflectance sample (Sentinel-2 L2A bands are nonnegative
integer data opened as masked floats). -/
def isCell : FVal → Bool
  | .nan => true
  | .fin a => decide (0 ≤ a)
  | _ => false

/-- A well-formed clipped reflectance raster: every cell is masked or a
finite nonnegative sample. -/
def IsRaster (xs : List FVal) : Prop := ∀ x ∈ xs, isCell x = true

/-- The NDTI values of the valid pixels, per the spec: pixels where both
bands are unmasked and the denominator `red + green` is nonzero, mapped to
`(red - green) / (red + green)`. -/
def validNdtiValues (red green : List FVal) : List ℚ :=
  (List.zip red green).filterMap (fun p =>
    match p with
    | (FVal.fin a, FVal.fin b) =>
        if a + b = 0 then none else some ((a - b) / (a + b))
    | _ => none)

/-- The clamped raw depth proxy as a function of the green-band mean. -/
def clampedDepth (g : ℚ) : ℚ :=
  if 30 - g / 500 < 5 then 12 else 30 - g / 500

/-- Round a rational to the nearest IEEE-754 binary64 value (53-bit
significand, ties to even); overflow and subnormals are ignored, as the
values of this analysis never approach them.  This is the rounding
NumPy/Python apply after every double operation. -/
def fl (q : ℚ) : ℚ :=
  if q = 0 then 0
  else (roundHalfEven (q / 2 ^ (Int.log 2 |q| - 52)) : ℚ) *
    2 ^ (Int.log 2 |q| - 52)

/-- Double-precision addition. -/
def fpAdd (x y : ℚ) : ℚ := fl (x + y)

/-- Double-precision subtraction. -/
def fpSub (x y : ℚ) : ℚ := fl (x - y)

/-- Double-precision multiplication. -/
def fpMul (x y : ℚ) : ℚ := fl (x * y)

/-- Double-precision division. -/
def fpDiv (x y : ℚ) : ℚ := fl (x / y)

/-- Double-precision mean of a fully valid (unmasked) float raster:
float sum of the samples divided by their count. -/
def fpMean (xs : List ℚ) : ℚ := fpDiv (xs.foldl fpAdd 0) (xs.length : ℚ)

/-- Python's `round(x, 1)` acting on a double `x`: correctly rounded
decimal round-half-even of the exact value of `x`, converted back to the
nearest double. -/
def pyRoundF (x : ℚ) : ℚ := fl (pyRound1 x)

/-- Binary64 refinement of `calculate_turbine_feasibility` on a fully
valid green raster: the same computation as the source with every float
operation rounded to the nearest double by `fl`.  This captures the
behavior the exact-decimal `pyRound1` abstraction cannot: `round(depth_m,
1)` acts on the binary double `depth_m`, whose value sits slightly below
the decimal it prints as. -/
def calculate_turbine_feasibility_fp (green : List ℚ) : ℚ × ℚ × ℚ × ℚ :=
  let depth0 := fpSub 30 (fpDiv (fpMean green) 500)
  let depth_m := if depth0 < 5 then (12:ℚ) else depth0
  let avg_wind_speed := fl (94/10)
  let dist_shore := fl (56/5)
  let score := fpAdd (fpMul avg_wind_speed 5) (fpSub 40 depth_m)
  (pyRoundF score, pyRoundF depth_m, avg_wind_speed, dist_shore)

/-! ### Helper lemmas -/

lemma isCell_elim {x : FVal} (h : isCell x = true) :
    x = FVal.nan ∨ ∃ q : ℚ, 0 ≤ q ∧ x = FVal.fin q := by
  cases x with
  | nan => exact Or.inl rfl
  | inf s => simp [isCell] at h
  | fin a => exact Or.inr ⟨a, by simpa [isCell] using h, rfl⟩

lemma mem_finVals (v : ℚ) : ∀ (ys : List FVal),
    v ∈ finVals ys ↔ FVal.fin v ∈ ys := by
  intro ys
  induction ys with
  | nil => simp [finVals]
  | cons y ys ih => cases y <;> simp [finVals, ih]

lemma any_inf_false {xs : List FVal}
    (h : ∀ x ∈ xs, x = FVal.nan ∨ ∃ q : ℚ, x = FVal.fin q) :
    xs.any isInfPos = false ∧ xs.any isInfNeg = false := by
  constructor <;>
  · rw [List.any_eq_false]
    intro x hx
    rcases h x hx with rfl | ⟨q, rfl⟩ <;> simp [isInfPos, isInfNeg]

lemma nanmean_no_inf {xs : List FVal}
    (h : ∀ x ∈ xs, x = FVal.nan ∨ ∃ q : ℚ, x = FVal.fin q) :
    nanmean xs = if finVals xs = [] then FVal.nan
      else FVal.fin ((finVals xs).sum / ((finVals xs).length : ℚ)) := by
  obtain ⟨h1, h2⟩ := any_inf_false h
  rw [nanmean, h1, h2]
  cases hv : finVals xs with
  | nil => simp
  | cons a l => simp

lemma fadd_fin (a b : ℚ) : fadd (FVal.fin a) (FVal.fin b) = FVal.fin (a + b) := rfl

lemma fmul_fin (a b : ℚ) : fmul (FVal.fin a) (FVal.fin b) = FVal.fin (a * b) := rfl

lemma fsub_fin (a b : ℚ) :
    fsub (FVal.fin a) (FVal.fin b) = FVal.fin (a - b) := by
  simp [fsub, fadd, fneg, sub_eq_add_neg]

lemma fdiv_fin_fin (a b : ℚ) (hb : b ≠ 0) :
    fdiv (FVal.fin a) (FVal.fin b) = FVal.fin (a / b) := by
  simp [fdiv, hb]

lemma ndti_cell_nan_left (q : FVal) :
    fdiv (fsub FVal.nan q) (fadd FVal.nan q) = FVal.nan := by
  cases q <;> rfl

lemma ndti_cell_nan_right (p : FVal) :
    fdiv (fsub p FVal.nan) (fadd p FVal.nan) = FVal.nan := by
  cases p <;> rfl

lemma ndti_cell_fin {a b : ℚ} (ha : 0 ≤ a) (hb : 0 ≤ b) :
    fdiv (fsub (FVal.fin a) (FVal.fin b)) (fadd (FVal.fin a) (FVal.fin b)) =
      if a + b = 0 then FVal.nan else FVal.fin ((a - b) / (a + b)) := by
  by_cases hab : a + b = 0
  · have ha0 : a = 0 := by linarith
    have hb0 : b = 0 := by linarith
    subst ha0; subst hb0
    simp [fsub, fadd, fneg, fdiv]
  · rw [if_neg hab, fsub_fin, fadd_fin, fdiv_fin_fin _ _ hab]

lemma ndtiField_spec : ∀ (red green : List FVal), IsRaster red → IsRaster green →
    finVals (ndtiField red green) = validNdtiValues red green ∧
    ∀ x ∈ ndtiField red green, x = FVal.nan ∨ ∃ q : ℚ, x = FVal.fin q := by
  intro red
  induction red with
  | nil =>
    intro green _ _
    simp [ndtiField, validNdtiValues, finVals]
  | cons p red ih =>
    intro green hr hg
    cases green with
    | nil => simp [ndtiField, validNdtiValues, finVals]
    | cons q green =>
      have hp := isCell_elim (hr p (List.mem_cons_self _ _))
      have hq := isCell_elim (hg q (List.mem_cons_self _ _))
      have hr' : IsRaster red := fun x hx => hr x (List.mem_cons_of_mem _ hx)
      have hg' : IsRaster green := fun x hx => hg x (List.mem_cons_of_mem _ hx)
      obtain ⟨ih1, ih2⟩ := ih green hr' hg'
      have hfield : ndtiField (p :: red) (q :: green) =
          fdiv (fsub p q) (fadd p q) :: ndtiField red green := rfl
      rcases hp with rfl | ⟨a, ha, rfl⟩
      · constructor
        · rw [hfield, ndti_cell_nan_left]
          simpa [validNdtiValues, finVals] using ih1
        · intro x hx
          rw [hfield, ndti_cell_nan_left] at hx
          rcases List.mem_cons.mp hx with rfl | hx'
          · exact Or.inl rfl
          · exact ih2 x hx'
      · rcases hq with rfl | ⟨b, hb, rfl⟩
        · constructor
          · rw [hfield, ndti_cell_nan_right]
            simpa [validNdtiValues, finVals] using ih1
          · intro x hx
            rw [hfield, ndti_cell_nan_right] at hx
            rcases List.mem_cons.mp hx with rfl | hx'
            · exact Or.inl rfl
            · exact ih2 x hx'
        · rw [hfield, ndti_cell_fin ha hb]
          by_cases hab : a + b = 0
          · rw [if_pos hab]
            constructor
            · simpa [validNdtiValues, finVals, hab] using ih1
            · intro x hx
              rcases List.mem_cons.mp hx with rfl | hx'
              · exact Or.inl rfl
              · exact ih2 x hx'
          · rw [if_neg hab]
            constructor
            · simpa [validNdtiValues, finVals, hab] using ih1
            · intro x hx
              rcases List.mem_cons.mp hx with rfl | hx'
              · exact Or.inr ⟨_, rfl⟩
              · exact ih2 x hx'

lemma marine_turbidity_eval {red green : List FVal}
    (hr : IsRaster red) (hg : IsRaster green) :
    (calculate_marine_status red green).2.1 =
      if validNdtiValues red green = [] then FVal.nan
      else FVal.fin ((validNdtiValues red green).sum /
        ((validNdtiValues red green).length : ℚ)) := by
  obtain ⟨h1, h2⟩ := ndtiField_spec red green hr hg
  show nanmean (ndtiField red green) = _
  rw [nanmean_no_inf h2, h1]

lemma feasibility_eval (red : List FVal) {green : List FVal} {g : ℚ}
    (hg : nanmean green = FVal.fin g) :
    calculate_turbine_feasibility red green =
      (FVal.fin (pyRound1 (94/10 * 5 + (40 - clampedDepth g))),
       FVal.fin (pyRound1 (clampedDepth g)), 94/10, 56/5) := by
  have h500 : fdiv (nanmean green) (FVal.fin 500) = FVal.fin (g / 500) := by
    rw [hg, fdiv_fin_fin _ _ (by norm_num)]
  simp only [calculate_turbine_feasibility, h500, fsub_fin, fmul_fin, flt,
    decide_eq_true_eq]
  by_cases hc : 30 - g / 500 < 5
  · rw [if_pos hc, clampedDepth, if_pos hc, fsub_fin, fadd_fin, fround1,
      fround1]
  · rw [if_neg hc, clampedDepth, if_neg hc, fsub_fin, fadd_fin, fround1,
      fround1]

lemma Int_log_eq_of (q : ℚ) (n : ℤ) (hq : 0 < q) (h1 : (2:ℚ) ^ n ≤ q)
    (h2 : q < 2 ^ (n + 1)) : Int.log 2 q = n := by
  have ha : n ≤ Int.log 2 q := by
    rw [← Int.zpow_le_iff_le_log (by norm_num) hq]
    exact_mod_cast h1
  have hb : Int.log 2 q < n + 1 := by
    rw [← Int.lt_zpow_iff_log_lt (by norm_num) hq]
    exact_mod_cast h2
  omega

lemma fl_eval_pos (q : ℚ) (n : ℤ) (hq : 0 < q) (h1 : (2:ℚ) ^ n ≤ q)
    (h2 : q < 2 ^ (n + 1)) :
    fl q = (roundHalfEven (q / 2 ^ (n - 52)) : ℚ) * 2 ^ (n - 52) := by
  rw [fl, if_neg (ne_of_gt hq), abs_of_pos hq, Int_log_eq_of q n hq h1 h2]

lemma fp25_eval :
    (calculate_turbine_feasibility_fp [25]).1 = 57 ∧
    (calculate_turbine_feasibility_fp [25]).2.1 =
      8416101803648614 / 281474976710656 ∧
    fpSub 30 (fpDiv (fpMean [25]) 500) =
      8430175552484147 / 281474976710656 := by
  have h25 : fl 25 = 25 := by
    rw [fl_eval_pos 25 4 (by norm_num) (by norm_num) (by norm_num)]
    norm_num [roundHalfEven]
  have hmean : fpMean [25] = 25 := by
    have hfold : [(25:ℚ)].foldl fpAdd 0 = fl (0 + 25) := rfl
    rw [fpMean, hfold, show (0:ℚ) + 25 = 25 by norm_num, h25, fpDiv]
    norm_num [h25]
  have hdiv : fpDiv 25 500 = 3602879701896397 / 72057594037927936 := by
    rw [fpDiv, show (25:ℚ) / 500 = 1/20 by norm_num,
      fl_eval_pos (1/20) (-5) (by norm_num) (by norm_num) (by norm_num)]
    norm_num [roundHalfEven]
  have hd0 : fpSub 30 (3602879701896397 / 72057594037927936) =
      8430175552484147 / 281474976710656 := by
    rw [fpSub, show (30:ℚ) - 3602879701896397 / 72057594037927936 =
      2158124941435941683 / 72057594037927936 by norm_num,
      fl_eval_pos _ 4 (by norm_num) (by norm_num) (by norm_num)]
    norm_num [roundHalfEven]
  have hwind : fl (94/10) = 5291729562160333 / 562949953421312 := by
    rw [fl_eval_pos (94/10) 3 (by norm_num) (by norm_num) (by norm_num)]
    norm_num [roundHalfEven]
  have hw5 : fpMul (5291729562160333 / 562949953421312) 5 = 47 := by
    rw [fpMul, show (5291729562160333:ℚ) / 562949953421312 * 5 =
      26458647810801665 / 562949953421312 by norm_num,
      fl_eval_pos _ 5 (by norm_num) (by norm_num) (by norm_num)]
    norm_num [roundHalfEven]
  have hs40 : fpSub 40 (8430175552484147 / 281474976710656) =
      2828823515942093 / 281474976710656 := by
    rw [fpSub, show (40:ℚ) - 8430175552484147 / 281474976710656 =
      2828823515942093 / 281474976710656 by norm_num,
      fl_eval_pos _ 3 (by norm_num) (by norm_num) (by norm_num)]
    norm_num [roundHalfEven]
  have hsc : fpAdd 47 (2828823515942093 / 281474976710656) =
      8029073710671462 / 140737488355328 := by
    rw [fpAdd, show (47:ℚ) + 2828823515942093 / 281474976710656 =
      16058147421342925 / 281474976710656 by norm_num,
      fl_eval_pos _ 5 (by norm_num) (by norm_num) (by norm_num)]
    norm_num [roundHalfEven]
  have h57 : fl 57 = 57 := by
    rw [fl_eval_pos 57 5 (by norm_num) (by norm_num) (by norm_num)]
    norm_num [roundHalfEven]
  have hrsc : pyRoundF (8029073710671462 / 140737488355328) = 57 := by
    have h1 : pyRound1 (8029073710671462 / 140737488355328) = 57 := by
      rw [pyRound1, show (10:ℚ) * (8029073710671462 / 140737488355328) =
        80290737106714620 / 140737488355328 by norm_num]
      norm_num [roundHalfEven]
    rw [pyRoundF, h1, h57]
  have hrd : pyRoundF (8430175552484147 / 281474976710656) =
      8416101803648614 / 281474976710656 := by
    have h1 : pyRound1 (8430175552484147 / 281474976710656) = 299/10 := by
      rw [pyRound1, show (10:ℚ) * (8430175552484147 / 281474976710656) =
        84301755524841470 / 281474976710656 by norm_num]
      norm_num [roundHalfEven]
    have h2 : fl (299/10) = 8416101803648614 / 281474976710656 := by
      rw [fl_eval_pos (299/10) 4 (by norm_num) (by norm_num) (by norm_num)]
      norm_num [roundHalfEven]
    rw [pyRoundF, h1, h2]
  refine ⟨?_, ?_, ?_⟩
  · simp only [calculate_turbine_feasibility_fp, hmean, hdiv, hd0]
    rw [if_neg (by norm_num), hwind, hw5, hs40, hsc, hrsc]
  · simp only [calculate_turbine_feasibility_fp, hmean, hdiv, hd0]
    rw [if_neg (by norm_num), hrd]
  · rw [hmean, hdiv, hd0]

lemma ndtiField_get? : ∀ (red green : List FVal) (i : ℕ) (p q : FVal),
    red.get? i = some p → green.get? i = some q →
    (ndtiField red green).get? i = some (fdiv (fsub p q) (fadd p q)) := by
  intro red
  induction red with
  | nil => intro green i p q hp _; simp at hp
  | cons r red ih =>
    intro green i p q hp hq
    cases green with
    | nil => simp at hq
    | cons g green =>
      cases i with
      | zero =>
        simp only [List.get?_cons_zero, Option.some.injEq] at hp hq
        subst hp; subst hq; rfl
      | succ i =>
        simp only [List.get?_cons_succ] at hp hq
        exact ih green i p q hp hq

lemma ndti_cell_same (x : FVal) :
    fdiv (fsub x x) (fadd x x) = FVal.nan ∨
    fdiv (fsub x x) (fadd x x) = FVal.fin 0 := by
  cases x with
  | nan => exact Or.inl rfl
  | inf s => cases s <;> exact Or.inl rfl
  | fin a =>
    by_cases ha : a = 0
    · subst ha
      left
      norm_num [fsub, fadd, fneg, fdiv]
    · right
      rw [fsub_fin, fadd_fin,
        fdiv_fin_fin _ _ (fun h => ha (add_self_eq_zero.mp h)), sub_self,
        zero_div]

lemma ndti_cell_same_ne {a : ℚ} (ha : a ≠ 0) :
    fdiv (fsub (FVal.fin a) (FVal.fin a)) (fadd (FVal.fin a) (FVal.fin a)) =
      FVal.fin 0 := by
  rw [fsub_fin, fadd_fin,
    fdiv_fin_fin _ _ (fun h => ha (add_self_eq_zero.mp h)), sub_self, zero_div]

lemma ndtiField_ones : ∀ (red green : List FVal),
    (∀ x ∈ red, ∃ a : ℚ, a ≠ 0 ∧ x = FVal.fin a) →
    (∀ x ∈ green, x = FVal.fin 0) →
    red.length = green.length →
    ndtiField red green = List.replicate red.length (FVal.fin 1) := by
  intro red
  induction red with
  | nil => intro green _ _ _; simp [ndtiField]
  | cons r red ih =>
    intro green hred hgreen hlen
    cases green with
    | nil => simp at hlen
    | cons g green =>
      obtain ⟨a, ha, rfl⟩ := hred r (List.mem_cons_self _ _)
      have hg0 := hgreen g (List.mem_cons_self _ _)
      subst hg0
      have hcons : ndtiField (FVal.fin a :: red) (FVal.fin 0 :: green) =
          fdiv (fsub (FVal.fin a) (FVal.fin 0))
            (fadd (FVal.fin a) (FVal.fin 0)) :: ndtiField red green := rfl
      rw [hcons, fsub_fin, fadd_fin, fdiv_fin_fin _ _ (by simpa using ha),
        List.length_cons, List.replicate_succ]
      congr 1
      · rw [sub_zero, add_zero, div_self ha]
      · exact ih green (fun x hx => hred x (List.mem_cons_of_mem _ hx))
          (fun x hx => hgreen x (List.mem_cons_of_mem _ hx))
          (by simpa using hlen)

lemma finVals_replicate_one (n : ℕ) :
    finVals (List.replicate n (FVal.fin 1)) = List.replicate n (1:ℚ) := by
  induction n with
  | zero => rfl
  | succ n ih => simp [List.replicate_succ, finVals, ih]

lemma nanmean_replicate_one {n : ℕ} (hn : n ≠ 0) :
    nanmean (List.replicate n (FVal.fin 1)) = FVal.fin 1 := by
  rw [nanmean_no_inf (fun x hx => Or.inr ⟨1, List.eq_of_mem_replicate hx⟩),
    finVals_replicate_one, if_neg (by simp [hn])]
  congr 1
  rw [List.sum_replicate, List.length_replicate, nsmul_eq_mul, mul_one,
    div_self (by exact_mod_cast hn)]

example : nanmean [FVal.fin 3000, FVal.nan, FVal.fin 1000] = FVal.fin 2000 := by
  norm_num [nanmean, finVals, isInfPos, isInfNeg]

example :
    (calculate_marine_status [FVal.fin 3000, FVal.fin 3000]
      [FVal.fin 1000, FVal.fin 1000]).2.1 = FVal.fin (1/2) := by
  norm_num [calculate_marine_status, ndtiField, nanmean, finVals, isInfPos,
    isInfNeg, fdiv, fsub, fadd, fneg]

example : pyRound1 (2995/100) = 30 := by
  norm_num [pyRound1, roundHalfEven]

example :
    calculate_turbine_feasibility [FVal.fin 1] [FVal.fin 15000] =
      (FVal.fin 75, FVal.fin 12, 94/10, 56/5) := by
  norm_num [calculate_turbine_feasibility, nanmean, finVals, isInfPos,
    isInfNeg, fdiv, fsub, fadd, fneg, fmul, flt, fround1, pyRound1,
    roundHalfEven]

/-! ### Claim theorems -/

/-- C1: for every pair of red and green rasters, the turbidity output is the
per-pixel normalized difference `(red - green) / (red + green)` (at every
pixel where both bands are unmasked and the denominator is nonzero), and the
returned turbidity mean equals the arithmetic mean of that field over all
valid (non-masked) pixels. -/
theorem turbidity_field_and_mean (red green : List FVal)
    (hr : IsRaster red) (hg : IsRaster green) :
    (∀ i : ℕ, ∀ a b : ℚ, red.get? i = some (FVal.fin a) →
        green.get? i = some (FVal.fin b) → a + b ≠ 0 →
        (calculate_marine_status red green).1.get? i =
          some (FVal.fin ((a - b) / (a + b)))) ∧
    (validNdtiValues red green ≠ [] →
      (calculate_marine_status red green).2.1 =
        FVal.fin ((validNdtiValues red green).sum /
          ((validNdtiValues red green).length : ℚ))) := by
  constructor
  · intro i a b hpa hqb hab
    have ha : 0 ≤ a := by
      have := hr _ (List.get?_mem hpa)
      simpa [isCell] using this
    have hb : 0 ≤ b := by
      have := hg _ (List.get?_mem hqb)
      simpa [isCell] using this
    show (ndtiField red green).get? i = _
    rw [ndtiField_get? red green i _ _ hpa hqb, ndti_cell_fin ha hb,
      if_neg hab]
  · intro hne
    rw [marine_turbidity_eval hr hg, if_neg hne]

/-- Witness for C1 at a concrete raster pair: one valid pixel with
red 3000, green 1000 alongside one masked pixel; the mean is 0.5. -/
theorem turbidity_field_and_mean_witness :
    IsRaster [FVal.fin 3000, FVal.nan] ∧
    IsRaster [FVal.fin 1000, FVal.fin 1000] ∧
    ((∀ i : ℕ, ∀ a b : ℚ,
        ([FVal.fin 3000, FVal.nan]).get? i = some (FVal.fin a) →
        ([FVal.fin 1000, FVal.fin 1000]).get? i = some (FVal.fin b) →
        a + b ≠ 0 →
        (calculate_marine_status [FVal.fin 3000, FVal.nan]
          [FVal.fin 1000, FVal.fin 1000]).1.get? i =
            some (FVal.fin ((a - b) / (a + b)))) ∧
     (validNdtiValues [FVal.fin 3000, FVal.nan]
        [FVal.fin 1000, FVal.fin 1000] ≠ [] →
      (calculate_marine_status [FVal.fin 3000, FVal.nan]
        [FVal.fin 1000, FVal.fin 1000]).2.1 =
        FVal.fin ((validNdtiValues [FVal.fin 3000, FVal.nan]
            [FVal.fin 1000, FVal.fin 1000]).sum /
          ((validNdtiValues [FVal.fin 3000, FVal.nan]
            [FVal.fin 1000, FVal.fin 1000]).length : ℚ)))) :=
  ⟨by norm_num [IsRaster, isCell], by norm_num [IsRaster, isCell],
   turbidity_field_and_mean _ _ (by norm_num [IsRaster, isCell])
     (by norm_num [IsRaster, isCell])⟩

/-- C2: pixels where red + green = 0 come out as no-data: the field value
there is NaN (masked), the field never contains an infinity, and the
returned mean is the mean of the valid (nonzero-denominator) values only —
so the division never contaminates the returned mean. -/
theorem zero_denominator_pixels_excluded (red green : List FVal)
    (hr : IsRaster red) (hg : IsRaster green) :
    (∀ i : ℕ, ∀ a b : ℚ, red.get? i = some (FVal.fin a) →
        green.get? i = some (FVal.fin b) → a + b = 0 →
        (calculate_marine_status red green).1.get? i = some FVal.nan) ∧
    (∀ x ∈ (calculate_marine_status red green).1,
        x ≠ FVal.inf true ∧ x ≠ FVal.inf false) ∧
    ((calculate_marine_status red green).2.1 =
      if validNdtiValues red green = [] then FVal.nan
      else FVal.fin ((validNdtiValues red green).sum /
        ((validNdtiValues red green).length : ℚ))) := by
  refine ⟨?_, ?_, marine_turbidity_eval hr hg⟩
  · intro i a b hpa hqb hab
    have ha : 0 ≤ a := by
      have := hr _ (List.get?_mem hpa)
      simpa [isCell] using this
    have hb : 0 ≤ b := by
      have := hg _ (List.get?_mem hqb)
      simpa [isCell] using this
    show (ndtiField red green).get? i = _
    rw [ndtiField_get? red green i _ _ hpa hqb, ndti_cell_fin ha hb,
      if_pos hab]
  · intro x hx
    have := (ndtiField_spec red green hr hg).2 x hx
    rcases this with rfl | ⟨q, rfl⟩ <;> simp

/-- Witness for C2 at a concrete raster pair containing a red+green = 0
pixel (both bands 0) alongside a valid pixel. -/
theorem zero_denominator_pixels_excluded_witness :
    IsRaster [FVal.fin 1, FVal.fin 0] ∧ IsRaster [FVal.fin 1, FVal.fin 0] ∧
    ((∀ i : ℕ, ∀ a b : ℚ,
        ([FVal.fin 1, FVal.fin 0]).get? i = some (FVal.fin a) →
        ([FVal.fin 1, FVal.fin 0]).get? i = some (FVal.fin b) →
        a + b = 0 →
        (calculate_marine_status [FVal.fin 1, FVal.fin 0]
          [FVal.fin 1, FVal.fin 0]).1.get? i = some FVal.nan) ∧
     (∀ x ∈ (calculate_marine_status [FVal.fin 1, FVal.fin 0]
          [FVal.fin 1, FVal.fin 0]).1,
        x ≠ FVal.inf true ∧ x ≠ FVal.inf false) ∧
     ((calculate_marine_status [FVal.fin 1, FVal.fin 0]
          [FVal.fin 1, FVal.fin 0]).2.1 =
        if validNdtiValues [FVal.fin 1, FVal.fin 0]
            [FVal.fin 1, FVal.fin 0] = [] then FVal.nan
        else FVal.fin ((validNdtiValues [FVal.fin 1, FVal.fin 0]
            [FVal.fin 1, FVal.fin 0]).sum /
          ((validNdtiValues [FVal.fin 1, FVal.fin 0]
            [FVal.fin 1, FVal.fin 0]).length : ℚ)))) :=
  ⟨by norm_num [IsRaster, isCell], by norm_num [IsRaster, isCell],
   zero_denominator_pixels_excluded _ _ (by norm_num [IsRaster, isCell])
     (by norm_num [IsRaster, isCell])⟩

/-- C8: if red and green agree at every pixel (same raster twice) and some
pixel carries a nonzero value, the turbidity mean is exactly 0; if green is
zero at every pixel and red is unmasked and nonzero at every pixel of a
nonempty raster of the same shape, the turbidity mean is exactly 1. -/
theorem turbidity_mean_extremes (xs red2 green2 : List FVal) :
    ((∃ a : ℚ, a ≠ 0 ∧ FVal.fin a ∈ xs) →
      (calculate_marine_status xs xs).2.1 = FVal.fin 0) ∧
    ((∀ x ∈ red2, ∃ a : ℚ, a ≠ 0 ∧ x = FVal.fin a) →
      (∀ x ∈ green2, x = FVal.fin 0) → red2 ≠ [] →
      red2.length = green2.length →
      (calculate_marine_status red2 green2).2.1 = FVal.fin 1) := by
  constructor
  · rintro ⟨a, ha, hmem⟩
    show nanmean (ndtiField xs xs) = _
    have hsame : ndtiField xs xs =
        xs.map (fun x => fdiv (fsub x x) (fadd x x)) :=
      List.zipWith_same _ _
    have hnf : ∀ x ∈ ndtiField xs xs,
        x = FVal.nan ∨ ∃ q : ℚ, x = FVal.fin q := by
      intro x hx
      rw [hsame, List.mem_map] at hx
      obtain ⟨y, _, rfl⟩ := hx
      rcases ndti_cell_same y with h | h <;> rw [h]
      · exact Or.inl rfl
      · exact Or.inr ⟨0, rfl⟩
    rw [nanmean_no_inf hnf]
    have h0mem : FVal.fin 0 ∈ ndtiField xs xs := by
      rw [hsame, List.mem_map]
      exact ⟨FVal.fin a, hmem, ndti_cell_same_ne ha⟩
    have hne : finVals (ndtiField xs xs) ≠ [] :=
      List.ne_nil_of_mem ((mem_finVals 0 _).mpr h0mem)
    rw [if_neg hne]
    have hzero : ∀ v ∈ finVals (ndtiField xs xs), v = (0:ℚ) := by
      intro v hv
      have hv' := (mem_finVals v _).mp hv
      rw [hsame, List.mem_map] at hv'
      obtain ⟨y, _, hy⟩ := hv'
      rcases ndti_cell_same y with h | h
      · rw [h] at hy
        exact absurd hy (by simp)
      · rw [h] at hy
        exact (FVal.fin.inj hy).symm
    rw [List.sum_eq_zero hzero, zero_div]
  · intro hred hgreen hne hlen
    show nanmean (ndtiField red2 green2) = _
    rw [ndtiField_ones red2 green2 hred hgreen hlen]
    exact nanmean_replicate_one (fun h => hne (List.length_eq_zero.mp h))

/-- Witness for C8: red = green = [5] gives mean 0; red = [7],
green = [0] gives mean 1. -/
theorem turbidity_mean_extremes_witness :
    (calculate_marine_status [FVal.fin 5] [FVal.fin 5]).2.1 = FVal.fin 0 ∧
    (calculate_marine_status [FVal.fin 7] [FVal.fin 0]).2.1 = FVal.fin 1 :=
  ⟨(turbidity_mean_extremes [FVal.fin 5] [] []).1
      ⟨5, by norm_num, by simp⟩,
   (turbidity_mean_extremes [] [FVal.fin 7] [FVal.fin 0]).2
      (by intro x hx
          rw [List.mem_singleton] at hx
          exact ⟨7, by norm_num, hx⟩)
      (by simp) (by simp) rfl⟩

/-- C3 counterexample: for the green raster `[7]` the raw depth
`30 - 7/500 = 29.986` is not below 5, yet the returned depth estimate is
the rounded value `30.0`, not the formula value `30 - 7/500`. -/
theorem depth_estimate_unrounded_cex :
    nanmean [FVal.fin 7] = FVal.fin 7 ∧
    ¬ ((30:ℚ) - 7/500 < 5) ∧
    (calculate_turbine_feasibility [FVal.fin 7] [FVal.fin 7]).2.1 =
      FVal.fin 30 ∧
    FVal.fin (30:ℚ) ≠ FVal.fin ((30:ℚ) - 7/500) := by
  refine ⟨by norm_num [nanmean, finVals, isInfPos, isInfNeg], by norm_num,
    ?_, by norm_num⟩
  norm_num [calculate_turbine_feasibility, nanmean, finVals, isInfPos,
    isInfNeg, fdiv, fsub, fadd, fneg, fmul, flt, fround1, pyRound1,
    roundHalfEven]

/-- C3 amended: the returned depth estimate equals `30 - (green_mean/500)`
rounded to one decimal place, except when the raw value is below 5, in
which case the result is exactly the fixed floor 12.0. -/
theorem depth_estimate_formula (red green : List FVal) (g : ℚ)
    (hg : nanmean green = FVal.fin g) :
    (calculate_turbine_feasibility red green).2.1 =
      FVal.fin (if 30 - g / 500 < 5 then (12:ℚ)
        else pyRound1 (30 - g / 500)) := by
  rw [feasibility_eval red hg]
  show FVal.fin (pyRound1 (clampedDepth g)) = _
  unfold clampedDepth
  by_cases hc : 30 - g / 500 < 5
  · rw [if_pos hc, if_pos hc]
    norm_num [pyRound1, roundHalfEven]
  · rw [if_neg hc, if_neg hc]

/-- Witness for C3's amended theorem: `green_mean = 15000` drives the raw
depth to 0, below 5, so the result is exactly 12.0. -/
theorem depth_estimate_formula_witness :
    nanmean [FVal.fin 15000] = FVal.fin 15000 ∧
    (calculate_turbine_feasibility [] [FVal.fin 15000]).2.1 =
      FVal.fin (if (30:ℚ) - 15000 / 500 < 5 then (12:ℚ)
        else pyRound1 (30 - 15000 / 500)) :=
  ⟨by norm_num [nanmean, finVals, isInfPos, isInfNeg],
   depth_estimate_formula [] [FVal.fin 15000] 15000
     (by norm_num [nanmean, finVals, isInfPos, isInfNeg])⟩

/-- C4: the returned feasibility score is
`(windSpeed * 5) + (40 - depth)` rounded to one decimal place (with the
clamped, unrounded depth), and the returned wind speed and distance to
shore are the fixed constants 9.4 and 11.2 regardless of the input
rasters. -/
theorem feasibility_score_and_constants (red green : List FVal) :
    (calculate_turbine_feasibility red green).2.2.1 = 94/10 ∧
    (calculate_turbine_feasibility red green).2.2.2 = 56/5 ∧
    ∀ g : ℚ, nanmean green = FVal.fin g →
      (calculate_turbine_feasibility red green).1 =
        FVal.fin (pyRound1 (94/10 * 5 + (40 - clampedDepth g))) := by
  refine ⟨rfl, rfl, ?_⟩
  intro g hg
  rw [feasibility_eval red hg]

/-- Witness for C4 at green mean 1000 (the spec's end-to-end scenario). -/
theorem feasibility_score_and_constants_witness :
    nanmean [FVal.fin 1000] = FVal.fin 1000 ∧
    (calculate_turbine_feasibility [] [FVal.fin 1000]).2.2.1 = 94/10 ∧
    (calculate_turbine_feasibility [] [FVal.fin 1000]).2.2.2 = 56/5 ∧
    (calculate_turbine_feasibility [] [FVal.fin 1000]).1 =
      FVal.fin (pyRound1 (94/10 * 5 + (40 - clampedDepth 1000))) :=
  ⟨by norm_num [nanmean, finVals, isInfPos, isInfNeg],
   (feasibility_score_and_constants [] [FVal.fin 1000]).1,
   (feasibility_score_and_constants [] [FVal.fin 1000]).2.1,
   (feasibility_score_and_constants [] [FVal.fin 1000]).2.2 1000
     (by norm_num [nanmean, finVals, isInfPos, isInfNeg])⟩

/-- C5 counterexample: under the binary64 semantics of the program, a
constant green raster of value 25 yields returned score 57.0 and returned
depth 29.9 (the double below 29.9), and `47 + (40 - returned_depth)` is
57.1, not the returned score — the claimed identity
`score = 47 + (40 - depth)` fails on the code. -/
theorem score_identity_float_cex :
    (calculate_turbine_feasibility_fp [25]).1 = 57 ∧
    (calculate_turbine_feasibility_fp [25]).2.1 =
      8416101803648614 / 281474976710656 ∧
    (calculate_turbine_feasibility_fp [25]).1 ≠
      47 + (40 - (calculate_turbine_feasibility_fp [25]).2.1) := by
  obtain ⟨h1, h2, -⟩ := fp25_eval
  refine ⟨h1, h2, ?_⟩
  rw [h1, h2]
  norm_num

/-- C5 amended: the feasibility computation ignores the red band entirely —
two runs with the same green raster and different red rasters return
identical tuples — and the returned score is
`round((9.4 * 5) + (40 - depth), 1)` computed from the clamped unrounded
depth; a depth estimate of 12.0 yields the score exactly 75.0.  (The exact
identity `score = 47 + (40 - returned depth)` can be off by 0.1 under
binary64 rounding; see the counterexample.) -/
theorem feasibility_red_invariant_amended (red1 red2 green : List FVal) :
    calculate_turbine_feasibility red1 green =
      calculate_turbine_feasibility red2 green ∧
    ∀ g : ℚ, nanmean green = FVal.fin g →
      (calculate_turbine_feasibility red1 green).1 =
        FVal.fin (pyRound1 (94/10 * 5 + (40 - clampedDepth g))) ∧
      (clampedDepth g = 12 →
        (calculate_turbine_feasibility red1 green).1 = FVal.fin 75) := by
  refine ⟨rfl, ?_⟩
  intro g hg
  rw [feasibility_eval red1 hg]
  refine ⟨rfl, ?_⟩
  intro h12
  rw [h12]
  norm_num [pyRound1, roundHalfEven]

/-- Witness for C5's amended theorem: green mean 15000 drives the clamped
depth to the floor 12.0 and the score to exactly 75.0, independently of
the red raster. -/
theorem feasibility_red_invariant_amended_witness :
    nanmean [FVal.fin 15000] = FVal.fin 15000 ∧
    clampedDepth 15000 = 12 ∧
    calculate_turbine_feasibility [FVal.fin 1] [FVal.fin 15000] =
      calculate_turbine_feasibility [FVal.fin 9999] [FVal.fin 15000] ∧
    (calculate_turbine_feasibility [FVal.fin 1] [FVal.fin 15000]).1 =
      FVal.fin 75 :=
  ⟨by norm_num [nanmean, finVals, isInfPos, isInfNeg],
   by norm_num [clampedDepth],
   (feasibility_red_invariant_amended [FVal.fin 1] [FVal.fin 9999]
     [FVal.fin 15000]).1,
   ((feasibility_red_invariant_amended [FVal.fin 1] [FVal.fin 9999]
     [FVal.fin 15000]).2 15000
     (by norm_num [nanmean, finVals, isInfPos, isInfNeg])).2
     (by norm_num [clampedDepth])⟩

/-- C6: a zero-result catalog search makes the analysis fail with the
index-out-of-range error, which propagates to the caller; it never
returns an `AnalysisResult`. -/
theorem empty_catalog_fails (site_name : String) :
    run_analysis [] site_name = Except.error AnalysisError.indexOutOfRange ∧
    ∀ r : AnalysisResult, run_analysis [] site_name ≠ Except.ok r := by
  refine ⟨rfl, ?_⟩
  intro r h
  simp [run_analysis] at h

/-- Witness for C6 at a concrete site name. -/
theorem empty_catalog_fails_witness :
    run_analysis [] ("Kish_Bank") =
      Except.error AnalysisError.indexOutOfRange ∧
    ∀ r : AnalysisResult, run_analysis [] ("Kish_Bank") ≠ Except.ok r :=
  empty_catalog_fails ("Kish_Bank")

/-- C7: the vegetation proxy is the green-band mean divided by 10000 and
multiplied by 1.15, and it is linear in the green mean: a raster whose
green mean is doubled yields exactly double the proxy. -/
theorem vegetation_proxy_linear (red red2 green green2 : List FVal) (g : ℚ)
    (hg : nanmean green = FVal.fin g)
    (hg2 : nanmean green2 = FVal.fin (2 * g)) :
    (calculate_marine_status red green).2.2 =
      FVal.fin (g / 10000 * (115/100)) ∧
    (calculate_marine_status red2 green2).2.2 =
      FVal.fin (2 * (g / 10000 * (115/100))) := by
  constructor
  · show fmul (fdiv (nanmean green) (FVal.fin 10000)) (FVal.fin (115/100)) = _
    rw [hg, fdiv_fin_fin _ _ (by norm_num), fmul_fin]
  · show fmul (fdiv (nanmean green2) (FVal.fin 10000)) (FVal.fin (115/100)) = _
    rw [hg2, fdiv_fin_fin _ _ (by norm_num), fmul_fin]
    congr 1
    ring

/-- Witness for C7 at green means 1000 and 2000. -/
theorem vegetation_proxy_linear_witness :
    nanmean [FVal.fin 1000] = FVal.fin 1000 ∧
    nanmean [FVal.fin 2000] = FVal.fin (2 * 1000) ∧
    (calculate_marine_status [] [FVal.fin 1000]).2.2 =
      FVal.fin ((1000:ℚ) / 10000 * (115/100)) ∧
    (calculate_marine_status [] [FVal.fin 2000]).2.2 =
      FVal.fin (2 * ((1000:ℚ) / 10000 * (115/100))) :=
  ⟨by norm_num [nanmean, finVals, isInfPos, isInfNeg],
   by norm_num [nanmean, finVals, isInfPos, isInfNeg],
   (vegetation_proxy_linear [] [] [FVal.fin 1000] [FVal.fin 2000] 1000
     (by norm_num [nanmean, finVals, isInfPos, isInfNeg])
     (by norm_num [nanmean, finVals, isInfPos, isInfNeg])).1,
   (vegetation_proxy_linear [] [] [FVal.fin 1000] [FVal.fin 2000] 1000
     (by norm_num [nanmean, finVals, isInfPos, isInfNeg])
     (by norm_num [nanmean, finVals, isInfPos, isInfNeg])).2⟩

/-- C9: the returned depth estimate is the raw clamped depth rounded to
one decimal place while the feasibility score is computed from the
unrounded depth, `score = round((9.4 * 5) + (40 - raw_depth), 1)`; and
under the binary64 semantics of the program this can differ from
`47 + (40 - returned_depth)` when the raw depth is not at one-decimal
precision: for a green raster of mean 25 the raw depth (the double just
below 29.95) is not at one-decimal precision, the returned score is 57.0,
the returned depth is 29.9, and `47 + (40 - 29.9)` is 57.1. -/
theorem score_from_unrounded_depth :
    (∀ (red green : List FVal) (g : ℚ), nanmean green = FVal.fin g →
      (calculate_turbine_feasibility red green).2.1 =
        FVal.fin (pyRound1 (clampedDepth g)) ∧
      (calculate_turbine_feasibility red green).1 =
        FVal.fin (pyRound1 (94/10 * 5 + (40 - clampedDepth g)))) ∧
    ((calculate_turbine_feasibility_fp [25]).2.1 ≠
        fpSub 30 (fpDiv (fpMean [25]) 500) ∧
      (calculate_turbine_feasibility_fp [25]).1 ≠
        47 + (40 - (calculate_turbine_feasibility_fp [25]).2.1)) := by
  constructor
  · intro red green g hg
    rw [feasibility_eval red hg]
    exact ⟨rfl, rfl⟩
  · obtain ⟨h1, h2, h3⟩ := fp25_eval
    constructor
    · rw [h2, h3]
      norm_num
    · rw [h1, h2]
      norm_num

/-- Witness for C9 at green mean 7 (raw depth 29.986). -/
theorem score_from_unrounded_depth_witness :
    nanmean [FVal.fin 7] = FVal.fin 7 ∧
    ((calculate_turbine_feasibility [] [FVal.fin 7]).2.1 =
      FVal.fin (pyRound1 (clampedDepth 7)) ∧
    (calculate_turbine_feasibility [] [FVal.fin 7]).1 =
      FVal.fin (pyRound1 (94/10 * 5 + (40 - clampedDepth 7)))) :=
  ⟨by norm_num [nanmean, finVals, isInfPos, isInfNeg],
   score_from_unrounded_depth.1 [] [FVal.fin 7] 7
     (by norm_num [nanmean, finVals, isInfPos, isInfNeg])⟩

/-- C10: for every site name, the preview image path returned as the first
element of the result tuple is the site name with the suffix
`_report.png`. -/
theorem preview_path_from_site_name (item : Scene) (rest : List Scene)
    (site_name : String) :
    ∃ r : AnalysisResult,
      run_analysis (item :: rest) site_name = Except.ok r ∧
      r.previewPath = site_name ++ "_report.png" :=
  ⟨_, rfl, rfl⟩

/-- Witness for C10 at a concrete scene and site name. -/
theorem preview_path_from_site_name_witness :
    ∃ r : AnalysisResult,
      run_analysis [⟨[FVal.fin 3000], [FVal.fin 1000]⟩] ("Kish_Bank") =
        Except.ok r ∧
      r.previewPath = ("Kish_Bank") ++ "_report.png" :=
  preview_path_from_site_name ⟨[FVal.fin 3000], [FVal.fin 1000]⟩ []
    ("Kish_Bank")
